import Mathlib

/-!
Shallow embedding of `src/main.rs` (Conway's Game of Life, vigdail/game_of_life)
and verification of its specification claims.

Modelling conventions:
* `usize` values (width, height, linear indices) are `Nat`; `isize`
  coordinates are `Int`.
* Rust's `x as usize` cast of an `isize` reinterprets the two's-complement
  bits, i.e. it takes the representative of `x` modulo `2^64`; `usizeOfIsize`
  models exactly that.  (`self.width as isize` is modelled as the identity
  embedding `(width : Int)`; theorems that depend on it carry the machine-size
  bound `width < 2^63` under which the cast is the identity on a 64-bit
  target.)
* the random source of `generate_field` (`rand::random::<bool>()`) is made
  explicit as a function `rng : Nat → Bool` giving the coin flip used for the
  n-th generated cell; nothing proved here depends on its values.
* `Vec<Cell>` is `List Cell`; `Vec::get` is `List.getElem?` (`l[i]?`).
-/

/-- Rust `enum WrapMode { Wrap, NoWrap }` from the source. -/
inductive WrapMode where
  | Wrap : WrapMode
  | NoWrap : WrapMode
deriving DecidableEq, Repr

/-- Rust `struct Cell(bool)` from the source. -/
structure Cell where
  val : Bool
deriving DecidableEq, Repr

/-- Source `Cell::alive()`: returns `Cell(true)`. -/
def Cell.alive : Cell := ⟨true⟩

/-- Source `Cell::dead()`: returns `Cell(false)`. -/
def Cell.dead : Cell := ⟨false⟩

/-- Source `Cell::is_alive(&self)`: returns the wrapped bool. -/
def Cell.is_alive (c : Cell) : Bool := c.val

/-- Rust `struct GameOfLife` from the source: width, height, flat cell vector
(row-major), wrap mode. -/
structure GameOfLife where
  width : Nat
  height : Nat
  field : List Cell
  wrap : WrapMode
deriving Repr

/-- Rust's `v as usize` on an `isize` value `v`: the representative of `v`
modulo `2^64` (64-bit target). -/
def usizeOfIsize (v : Int) : Nat := (v % (2 ^ 64 : Int)).toNat

/-- Source `GameOfLife::generate_field(count)`:
`(0..count).map(|_| Cell(random::<bool>())).collect()`, with the random
source made explicit as `rng`. -/
def GameOfLife.generate_field (rng : Nat → Bool) (count : Nat) : List Cell :=
  (List.range count).map (fun i => Cell.mk (rng i))

/-- Source constructor `GameOfLife::new(width, height, wrap)`. -/
def GameOfLife.new (width height : Nat) (wrap : WrapMode) (rng : Nat → Bool) :
    GameOfLife :=
  { width := width
    height := height
    field := GameOfLife.generate_field rng (width * height)
    wrap := wrap }

/-- Source `GameOfLife::index(x, y)`: computes `y * self.width + x`. -/
def GameOfLife.index (g : GameOfLife) (x y : Nat) : Nat := y * g.width + x

/-- Source `GameOfLife::index_to_coords(index)`:
`(index % self.width, index / self.width)`. -/
def GameOfLife.index_to_coords (g : GameOfLife) (index : Nat) : Nat × Nat :=
  (index % g.width, index / g.width)

/-- The `x` computed by the `Wrap` arm of `GameOfLife::get`:
`(x + self.width as isize) as usize % self.width` (and analogously for `y`
with the height). -/
def GameOfLife.wrapCoord (w : Nat) (x : Int) : Nat :=
  usizeOfIsize (x + (w : Int)) % w

/-- Source `GameOfLife::get(x, y)`. -/
def GameOfLife.get (g : GameOfLife) (x y : Int) : Option Cell :=
  match g.wrap with
  | WrapMode.Wrap =>
      let xw := GameOfLife.wrapCoord g.width x
      let yw := GameOfLife.wrapCoord g.height y
      g.field[g.index xw yw]?
  | WrapMode.NoWrap =>
      if x < 0 ∨ (g.width : Int) ≤ x ∨ y < 0 ∨ (g.height : Int) ≤ y then
        none
      else
        g.field[g.index x.toNat y.toNat]?

/-- Source `GameOfLife::is_alive(x, y)`:
`self.get(x, y).map(|c| c.is_alive()).unwrap_or(false)`. -/
def GameOfLife.is_alive (g : GameOfLife) (x y : Int) : Bool :=
  ((g.get x y).map Cell.is_alive).getD false

/-- The neighbourhood offsets iterated by `count_neighbors`:
`(-1..=1).flat_map(|i| (-1..=1).map(move |j| (i, j))).filter(|(i, j)| *i != 0 || *j != 0)`. -/
def neighborOffsets : List (Int × Int) :=
  (([-1, 0, 1] : List Int).flatMap
      (fun i => ([-1, 0, 1] : List Int).map (fun j => (i, j)))).filter
    (fun p => p.1 != 0 || p.2 != 0)

/-- Source `GameOfLife::count_neighbors(index)`: the number of the
eight offsets whose cell (looked up through `is_alive`, hence through the
boundary policy) is alive. -/
def GameOfLife.count_neighbors (g : GameOfLife) (index : Nat) : Nat :=
  let xy := g.index_to_coords index
  let x : Int := (xy.1 : Int)
  let y : Int := (xy.2 : Int)
  (neighborOffsets.filter (fun p => g.is_alive (x + p.1) (y + p.2))).length

/-- Source `GameOfLife::update(&mut self)`: the new field is built
by mapping over a clone of the old field, with every neighbour count read
from `self` — which still holds the old field until the final assignment. -/
def GameOfLife.update (g : GameOfLife) : GameOfLife :=
  { g with
    field :=
      g.field.enum.map (fun ic =>
        match g.count_neighbors ic.1 with
        | 2 => ic.2
        | 3 => Cell.alive
        | _ => Cell.dead) }

/-- The per-cell 3-way branch inside `update`, as a standalone function of
the neighbour count and the current cell. -/
def branchNext (neighbors : Nat) (c : Cell) : Cell :=
  match neighbors with
  | 2 => c
  | 3 => Cell.alive
  | _ => Cell.dead

/-- The classic B3/S23 birth/survival formulation of the rule: next state is
alive iff the count is 3, or the cell is alive and the count is 2. -/
def b3s23Next (neighbors : Nat) (c : Cell) : Cell :=
  if neighbors == 3 || (c.is_alive && neighbors == 2) then Cell.alive
  else Cell.dead

/-- The eight neighbourhood offsets, written out. -/
def explicitOffsets : List (Int × Int) :=
  [(-1, -1), (-1, 0), (-1, 1), (0, -1), (0, 1), (1, -1), (1, 0), (1, 1)]

lemma neighborOffsets_eq_explicit : neighborOffsets = explicitOffsets := by
  decide

/-! Section Helper lemmas -/

lemma GameOfLife.update_field_length (g : GameOfLife) :
    g.update.field.length = g.field.length := by
  simp [GameOfLife.update]

/-- Reading a cell of the updated field: the old cell with the 3-way branch
applied, the neighbour count taken against the old grid. -/
lemma GameOfLife.update_field_getElem (g : GameOfLife) (i : Nat) :
    g.update.field[i]? =
      (g.field[i]?).map (fun c => branchNext (g.count_neighbors i) c) := by
  simp only [GameOfLife.update, List.getElem?_map, List.getElem?_enum,
    Option.map_map]
  rfl

/-- On the machine range (no 64-bit cast wrap-around) and for `x ≥ -width`,
the `Wrap` coordinate computation agrees with the mathematical residue
`x mod w`. -/
lemma wrapCoord_eq_of_le (w : Nat) (hw : 0 < w) (x : Int)
    (hx : -(w : Int) ≤ x) (hb : x + (w : Int) < 2 ^ 64) :
    GameOfLife.wrapCoord w x = (x % (w : Int)).toNat := by
  have h0 : (0 : Int) ≤ x + (w : Int) := by omega
  have hmod : (x + (w : Int)) % (2 ^ 64 : Int) = x + w := Int.emod_eq_of_lt h0 hb
  unfold GameOfLife.wrapCoord usizeOfIsize
  rw [hmod]
  have h1 : (((x + (w : Int)).toNat % w : Nat) : Int) = x % (w : Int) := by
    push_cast
    rw [Int.toNat_of_nonneg h0, Int.add_emod_self]
  have h2 := congrArg Int.toNat h1
  rwa [Int.toNat_natCast] at h2

lemma wrapCoord_lt (w : Nat) (hw : 0 < w) (x : Int) :
    GameOfLife.wrapCoord w x < w :=
  Nat.mod_lt _ hw

/-- Offsets in `{-1,0,1}` added to an in-bounds coordinate resolve injectively
through the `Wrap` computation once the width is at least 3. -/
lemma wrapCoord_add_inj (w : Nat) (hw : 3 ≤ w) (hb : w < 2 ^ 63)
    (x : Nat) (hx : x < w) (d1 d2 : Int)
    (hd1l : -1 ≤ d1) (hd1r : d1 ≤ 1) (hd2l : -1 ≤ d2) (hd2r : d2 ≤ 1)
    (h : GameOfLife.wrapCoord w ((x : Int) + d1) =
      GameOfLife.wrapCoord w ((x : Int) + d2)) :
    d1 = d2 := by
  have hw0 : 0 < w := by omega
  rw [wrapCoord_eq_of_le w hw0 _ (by omega) (by omega),
    wrapCoord_eq_of_le w hw0 _ (by omega) (by omega)] at h
  have hwz : (w : Int) ≠ 0 := by exact_mod_cast hw0.ne'
  have hn1 : (0 : Int) ≤ ((x : Int) + d1) % w := Int.emod_nonneg _ hwz
  have hn2 : (0 : Int) ≤ ((x : Int) + d2) % w := Int.emod_nonneg _ hwz
  have hmeq : ((x : Int) + d1) % w = ((x : Int) + d2) % w := by omega
  have hdvd : (w : Int) ∣ ((x : Int) + d2) - ((x : Int) + d1) :=
    Int.ModEq.dvd hmeq
  have hdvd' : (w : Int) ∣ d2 - d1 := by
    have : ((x : Int) + d2) - ((x : Int) + d1) = d2 - d1 := by ring
    rwa [this] at hdvd
  have habs : |d2 - d1| < (w : Int) := by
    rw [abs_lt]
    constructor <;> omega
  have := Int.eq_zero_of_abs_lt_dvd hdvd' habs
  omega

lemma branchNext_eq_dead (n : Nat) (c : Cell) (h2 : n ≠ 2) (h3 : n ≠ 3) :
    branchNext n c = Cell.dead := by
  match n, h2, h3 with
  | 0, _, _ => rfl
  | 1, _, _ => rfl
  | 2, h, _ => exact absurd rfl h
  | 3, _, h => exact absurd rfl h
  | n + 4, _, _ => rfl

lemma rowmajor_lt (w h xw yw : Nat) (hx : xw < w) (hy : yw < h) :
    yw * w + xw < w * h :=
  calc yw * w + xw < yw * w + w := by omega
  _ = (yw + 1) * w := (Nat.succ_mul yw w).symm
  _ ≤ h * w := Nat.mul_le_mul_right w hy
  _ = w * h := Nat.mul_comm h w

lemma rowmajor_inj (w xa ya xb yb : Nat) (hxa : xa < w) (hxb : xb < w)
    (h : ya * w + xa = yb * w + xb) : xa = xb ∧ ya = yb := by
  have h1 : (ya * w + xa) % w = (yb * w + xb) % w := by rw [h]
  rw [Nat.mul_comm ya w, Nat.mul_comm yb w, Nat.mul_add_mod, Nat.mul_add_mod,
    Nat.mod_eq_of_lt hxa, Nat.mod_eq_of_lt hxb] at h1
  rw [Nat.mul_comm ya w, Nat.mul_comm yb w] at h
  subst h1
  refine ⟨rfl, ?_⟩
  have hw : 0 < w := by omega
  have h2 : w * ya = w * yb := Nat.add_right_cancel h
  exact Nat.eq_of_mul_eq_mul_left hw h2

lemma length_filter_le_one {α : Type} (p : α → Bool) (l : List α)
    (hl : l.Pairwise (fun a b => ¬(p a = true ∧ p b = true))) :
    (l.filter p).length ≤ 1 := by
  induction hl with
  | nil => simp
  | @cons a t ha _ ih =>
    by_cases hpa : p a = true
    · rw [List.filter_cons_of_pos hpa]
      have ht : t.filter p = [] :=
        List.filter_eq_nil_iff.mpr (fun b hb hpb => ha b hb ⟨hpa, hpb⟩)
      rw [ht]
      simp
    · rw [List.filter_cons_of_neg hpa]
      exact ih

/-! Section C7: coordinate round-trips -/

/-- C7: for every grid with positive width and height, `index` and
`index_to_coords` are mutually inverse on the valid ranges: for every linear
index `i < width*height`, `index (index_to_coords i) = i`, and for every
`x < width`, `y < height`, `index_to_coords (index x y) = (x, y)`. -/
theorem coords_index_roundtrip (g : GameOfLife) (hw : 0 < g.width)
    (hh : 0 < g.height) :
    (∀ i, i < g.width * g.height →
      g.index (g.index_to_coords i).1 (g.index_to_coords i).2 = i) ∧
    (∀ x y, x < g.width → y < g.height →
      g.index_to_coords (g.index x y) = (x, y)) := by
  constructor
  · intro i _
    show i / g.width * g.width + i % g.width = i
    rw [Nat.mul_comm (i / g.width) g.width]
    exact Nat.div_add_mod i g.width
  · intro x y hx _
    show ((y * g.width + x) % g.width, (y * g.width + x) / g.width) = (x, y)
    have h1 : (y * g.width + x) % g.width = x := by
      rw [Nat.mul_comm y g.width, Nat.mul_add_mod]
      exact Nat.mod_eq_of_lt hx
    have h2 : (y * g.width + x) / g.width = y := by
      rw [Nat.mul_comm y g.width, Nat.mul_add_div hw, Nat.div_eq_of_lt hx,
        Nat.add_zero]
    rw [h1, h2]

theorem coords_index_roundtrip_witness :
    (GameOfLife.mk 10 5 [] WrapMode.NoWrap).index_to_coords
      ((GameOfLife.mk 10 5 [] WrapMode.NoWrap).index 9 4) = (9, 4) :=
  (coords_index_roundtrip (GameOfLife.mk 10 5 [] WrapMode.NoWrap)
    (by decide) (by decide)).2 9 4 (by decide) (by decide)

/-! Section C8: structural invariants -/

/-- C8: `new` allocates exactly `width*height` cells, and `update` leaves
width, height and the boundary policy unchanged and keeps the field length;
in particular when the field length was `width*height` it still is. -/
theorem grid_invariants (w h : Nat) (wrap : WrapMode) (rng : Nat → Bool)
    (g : GameOfLife) :
    (GameOfLife.new w h wrap rng).field.length = w * h ∧
    g.update.width = g.width ∧
    g.update.height = g.height ∧
    g.update.wrap = g.wrap ∧
    g.update.field.length = g.field.length ∧
    (g.field.length = g.width * g.height →
      g.update.field.length = g.update.width * g.update.height) := by
  refine ⟨?_, rfl, rfl, rfl, g.update_field_length, ?_⟩
  · simp [GameOfLife.new, GameOfLife.generate_field]
  · intro hlen
    rw [g.update_field_length, hlen]
    rfl

theorem grid_invariants_witness :
    (GameOfLife.mk 2 3 [Cell.dead, Cell.alive, Cell.dead, Cell.alive,
      Cell.dead, Cell.alive] WrapMode.Wrap).update.field.length = 2 * 3 :=
  (grid_invariants 2 3 WrapMode.Wrap (fun _ => true)
      (GameOfLife.mk 2 3 [Cell.dead, Cell.alive, Cell.dead, Cell.alive,
        Cell.dead, Cell.alive] WrapMode.Wrap)).2.2.2.2.2 (by decide)

/-! Section C5: the 3-way branch is the B3/S23 rule -/

/-- C5: for every cell state and every neighbour count in [0,8], the 3-way
branch of `update` (`2 → keep, 3 → alive, _ → dead`) agrees with the classic
B3/S23 birth/survival formulation. -/
theorem branch_eq_b3s23 (n : Nat) (c : Cell) (h : n ≤ 8) :
    branchNext n c = b3s23Next n c := by
  interval_cases n <;> rcases c with ⟨b⟩ <;> cases b <;> rfl

theorem branch_eq_b3s23_witness :
    branchNext 2 Cell.dead = b3s23Next 2 Cell.dead :=
  branch_eq_b3s23 2 Cell.dead (by decide)

/-! Section C4: neighbour counting -/

/-- C4: for every grid with positive width and height and every cell index,
the neighbour count is the number of the eight offsets of `{-1,0,1}² \ (0,0)`
whose resolution through the boundary policy (`is_alive`, which treats an
absent resolution as dead) is a live cell, and it is at most 8. -/
theorem count_neighbors_spec (g : GameOfLife) (hw : 0 < g.width)
    (hh : 0 < g.height) (i : Nat) :
    g.count_neighbors i =
      explicitOffsets.countP
        (fun p => g.is_alive (((i % g.width : Nat) : Int) + p.1)
          (((i / g.width : Nat) : Int) + p.2)) ∧
    g.count_neighbors i ≤ 8 := by
  constructor
  · simp only [GameOfLife.count_neighbors, GameOfLife.index_to_coords,
      neighborOffsets_eq_explicit, List.countP_eq_length_filter]
  · show (neighborOffsets.filter _).length ≤ 8
    calc (neighborOffsets.filter _).length ≤ neighborOffsets.length :=
          List.length_filter_le _ _
    _ = 8 := by decide

theorem count_neighbors_spec_witness :
    (GameOfLife.mk 3 3 [Cell.dead, Cell.dead, Cell.dead, Cell.dead,
        Cell.alive, Cell.dead, Cell.dead, Cell.dead, Cell.dead]
      WrapMode.Wrap).count_neighbors 0 ≤ 8 :=
  (count_neighbors_spec (GameOfLife.mk 3 3 [Cell.dead, Cell.dead, Cell.dead,
      Cell.dead, Cell.alive, Cell.dead, Cell.dead, Cell.dead, Cell.dead]
    WrapMode.Wrap) (by decide) (by decide) 0).2

/-! Section C1: the per-cell update rule -/

/-- C1: for every grid with positive dimensions and a field of length
`width*height`, after one `update` the cell at index `i` keeps its old state
when its pre-update neighbour count is 2, is alive when the count is 3, and
is dead for every other count. -/
theorem update_cell_rule (g : GameOfLife) (hw : 0 < g.width)
    (hh : 0 < g.height) (hlen : g.field.length = g.width * g.height)
    (i : Nat) (hi : i < g.width * g.height) :
    (g.count_neighbors i = 2 → g.update.field[i]? = g.field[i]?) ∧
    (g.count_neighbors i = 3 → g.update.field[i]? = some Cell.alive) ∧
    (g.count_neighbors i ≠ 2 → g.count_neighbors i ≠ 3 →
      g.update.field[i]? = some Cell.dead) := by
  have hi' : i < g.field.length := by omega
  have hc : g.field[i]? = some g.field[i] := List.getElem?_eq_getElem hi'
  refine ⟨?_, ?_, ?_⟩
  · intro h2
    rw [GameOfLife.update_field_getElem, hc, h2]
    rfl
  · intro h3
    rw [GameOfLife.update_field_getElem, hc, h3]
    rfl
  · intro h2 h3
    rw [GameOfLife.update_field_getElem, hc]
    show some (branchNext (g.count_neighbors i) g.field[i]) = some Cell.dead
    rw [branchNext_eq_dead _ _ h2 h3]

theorem update_cell_rule_witness :
    (GameOfLife.mk 3 3 [Cell.dead, Cell.dead, Cell.dead, Cell.dead,
        Cell.alive, Cell.dead, Cell.dead, Cell.dead, Cell.dead]
      WrapMode.Wrap).update.field[4]? = some Cell.dead :=
  (update_cell_rule (GameOfLife.mk 3 3 [Cell.dead, Cell.dead, Cell.dead,
      Cell.dead, Cell.alive, Cell.dead, Cell.dead, Cell.dead, Cell.dead]
    WrapMode.Wrap) (by decide) (by decide) (by decide) 4
    (by decide)).2.2 (by decide) (by decide)

/-! Section C2: update reads only the frozen pre-update state -/

/-- Reference implementation written from the spec's words for the atomicity
property: it first fully materializes the old state (`old`), then writes
every new cell as a function of `old` alone — cell `i` becomes the 3-way
rule applied to the old cell `i` and the neighbour count computed against
`old`. -/
def GameOfLife.updateRef (g : GameOfLife) : GameOfLife :=
  let old : GameOfLife := g
  { g with
    field :=
      (List.range g.field.length).map (fun i =>
        branchNext (old.count_neighbors i) (old.field.getD i Cell.dead)) }

/-- C2: `update` computes every new cell from the frozen pre-update state:
it coincides exactly with the reference implementation `updateRef` that
materializes the old state before writing any new state, so no cell's new
state can depend on an already-updated cell and no caller observes a
partially updated grid. -/
theorem update_eq_reference (g : GameOfLife) : g.update = g.updateRef := by
  have hfield : g.update.field = g.updateRef.field := by
    apply List.ext_getElem?
    intro i
    rw [GameOfLife.update_field_getElem]
    show _ = ((List.range g.field.length).map _)[i]?
    rw [List.getElem?_map]
    by_cases hi : i < g.field.length
    · rw [List.getElem?_eq_getElem hi, List.getElem?_range hi]
      show some (branchNext (g.count_neighbors i) g.field[i]) =
        some (branchNext (g.count_neighbors i) (g.field.getD i Cell.dead))
      rw [List.getD_eq_getElem?_getD, List.getElem?_eq_getElem hi]
      rfl
    · rw [List.getElem?_eq_none (by omega),
        List.getElem?_eq_none (by simpa using (by omega : g.field.length ≤ i))]
      rfl
  show ({ g with field := g.update.field } : GameOfLife) =
    { g with field := g.updateRef.field }
  rw [hfield]

/-! Section C6: Clip (NoWrap) resolution -/

/-- C6: in `NoWrap` mode, `get` yields `none` for any coordinate outside
`[0,width) × [0,height)`, and inside bounds it yields exactly the cell at
row-major index `y*width + x` (which exists). -/
theorem clip_resolution (g : GameOfLife) (hwrap : g.wrap = WrapMode.NoWrap)
    (hw : 0 < g.width) (hh : 0 < g.height)
    (hlen : g.field.length = g.width * g.height) (x y : Int) :
    ((x < 0 ∨ (g.width : Int) ≤ x ∨ y < 0 ∨ (g.height : Int) ≤ y) →
      g.get x y = none) ∧
    (0 ≤ x → x < (g.width : Int) → 0 ≤ y → y < (g.height : Int) →
      g.get x y = g.field[y.toNat * g.width + x.toNat]? ∧
      ∃ c, g.get x y = some c) := by
  rcases g with ⟨w, h, f, wr⟩
  have hwrap' : wr = WrapMode.NoWrap := hwrap
  subst hwrap'
  dsimp only at hw hh hlen ⊢
  constructor
  · intro hout
    show (if x < 0 ∨ ((w : Nat) : Int) ≤ x ∨ y < 0 ∨ ((h : Nat) : Int) ≤ y
      then none else f[(GameOfLife.mk w h f WrapMode.NoWrap).index x.toNat y.toNat]?) = none
    rw [if_pos hout]
  · intro hx0 hxw hy0 hyh
    have hnot : ¬(x < 0 ∨ ((w : Nat) : Int) ≤ x ∨ y < 0 ∨ ((h : Nat) : Int) ≤ y) := by
      omega
    have hget : (GameOfLife.mk w h f WrapMode.NoWrap).get x y =
        f[y.toNat * w + x.toNat]? := by
      show (if x < 0 ∨ ((w : Nat) : Int) ≤ x ∨ y < 0 ∨ ((h : Nat) : Int) ≤ y
        then none
        else f[(GameOfLife.mk w h f WrapMode.NoWrap).index x.toNat y.toNat]?) = _
      rw [if_neg hnot]
      rfl
    refine ⟨hget, ?_⟩
    have hxlt : x.toNat < w := by omega
    have hylt : y.toNat < h := by omega
    have hidx : y.toNat * w + x.toNat < f.length := by
      have := rowmajor_lt w h x.toNat y.toNat hxlt hylt
      omega
    exact ⟨f[y.toNat * w + x.toNat], by
      rw [hget]; exact List.getElem?_eq_getElem hidx⟩

theorem clip_resolution_witness :
    (GameOfLife.mk 2 2 [Cell.alive, Cell.dead, Cell.dead, Cell.alive]
      WrapMode.NoWrap).get 5 0 = none :=
  (clip_resolution (GameOfLife.mk 2 2 [Cell.alive, Cell.dead, Cell.dead,
      Cell.alive] WrapMode.NoWrap) rfl (by decide) (by decide) (by decide)
    5 0).1 (by decide)

/-! Section C3: Wrap resolution -/

/-- A concrete 3×3 wrap-mode grid whose only live cell is the top-left
corner; used to exhibit the behaviour of `get` on far-out-of-range
coordinates. -/
def gridCorner : GameOfLife :=
  GameOfLife.mk 3 3 [Cell.alive, Cell.dead, Cell.dead, Cell.dead, Cell.dead,
    Cell.dead, Cell.dead, Cell.dead, Cell.dead] WrapMode.Wrap

/-- C3 counterexample: for `x = -4` on a width-3 wrap grid the code's
resolution `(x + width) as usize % width` yields column 0, while the claimed
formula `((x mod width) + width) mod width` yields column 2, and the claimed
periodicity `resolve(x, y) = resolve(x + width, y)` fails: `get (-4) 0` sees
the live corner cell while `get (-4 + 3) 0` sees a dead cell. -/
theorem wrap_resolution_cex :
    GameOfLife.wrapCoord 3 (-4) = 0 ∧
    (((-4 : Int) % 3 + 3) % 3).toNat = 2 ∧
    gridCorner.get (-4) 0 = some Cell.alive ∧
    gridCorner.get (-4 + 3) 0 = some Cell.dead := by
  refine ⟨by decide, by decide, by decide, by decide⟩

/-- C3 amended: in `Wrap` mode resolution always yields a valid in-bounds
cell, for every signed `(x, y)` without restriction; the claimed formula
`((x mod width) + width) mod width` (and the analogue for `y`) and the
periodicity `resolve(x,y) = resolve(x+width,y) = resolve(x,y+height)` hold
on the restricted range `x ≥ -width`, `y ≥ -height` (absent 64-bit cast
wrap-around), which covers every neighbour lookup the program performs. -/
theorem wrap_resolution_amended (g : GameOfLife)
    (hwrap : g.wrap = WrapMode.Wrap) (hw : 0 < g.width) (hh : 0 < g.height)
    (hlen : g.field.length = g.width * g.height) :
    (∀ x y : Int,
      GameOfLife.wrapCoord g.width x < g.width ∧
      GameOfLife.wrapCoord g.height y < g.height ∧
      ∃ c, g.get x y = some c) ∧
    (∀ x y : Int, -(g.width : Int) ≤ x → -(g.height : Int) ≤ y →
      x + (g.width : Int) + (g.width : Int) < 2 ^ 64 →
      y + (g.height : Int) + (g.height : Int) < 2 ^ 64 →
      (GameOfLife.wrapCoord g.width x =
          ((x % (g.width : Int) + (g.width : Int)) % (g.width : Int)).toNat ∧
        GameOfLife.wrapCoord g.height y =
          ((y % (g.height : Int) + (g.height : Int)) % (g.height : Int)).toNat) ∧
      g.get (x + (g.width : Int)) y = g.get x y ∧
      g.get x (y + (g.height : Int)) = g.get x y) := by
  rcases g with ⟨w, h, f, wr⟩
  have hwrap' : wr = WrapMode.Wrap := hwrap
  subst hwrap'
  dsimp only at hw hh hlen ⊢
  constructor
  · intro x y
    have hxlt : GameOfLife.wrapCoord w x < w := wrapCoord_lt w hw x
    have hylt : GameOfLife.wrapCoord h y < h := wrapCoord_lt h hh y
    refine ⟨hxlt, hylt, ?_⟩
    have hidx : GameOfLife.wrapCoord h y * w + GameOfLife.wrapCoord w x <
        f.length := by
      have := rowmajor_lt w h (GameOfLife.wrapCoord w x)
        (GameOfLife.wrapCoord h y) hxlt hylt
      omega
    exact ⟨f[GameOfLife.wrapCoord h y * w + GameOfLife.wrapCoord w x],
      List.getElem?_eq_getElem hidx⟩
  · intro x y hx hy hxb hyb
    have hwx : GameOfLife.wrapCoord w x = (x % (w : Int)).toNat :=
      wrapCoord_eq_of_le w hw x hx (by omega)
    have hwy : GameOfLife.wrapCoord h y = (y % (h : Int)).toNat :=
      wrapCoord_eq_of_le h hh y hy (by omega)
    have hwx' : GameOfLife.wrapCoord w (x + (w : Int)) =
        (x % (w : Int)).toNat := by
      rw [wrapCoord_eq_of_le w hw (x + (w : Int)) (by omega) (by omega),
        Int.add_emod_self]
    have hwy' : GameOfLife.wrapCoord h (y + (h : Int)) =
        (y % (h : Int)).toNat := by
      rw [wrapCoord_eq_of_le h hh (y + (h : Int)) (by omega) (by omega),
        Int.add_emod_self]
    have hspecx : ((x % (w : Int) + (w : Int)) % (w : Int)) = x % (w : Int) := by
      rw [Int.add_emod_self, Int.emod_emod_of_dvd _ dvd_rfl]
    have hspecy : ((y % (h : Int) + (h : Int)) % (h : Int)) = y % (h : Int) := by
      rw [Int.add_emod_self, Int.emod_emod_of_dvd _ dvd_rfl]
    refine ⟨⟨by rw [hwx, hspecx], by rw [hwy, hspecy]⟩, ?_, ?_⟩
    · show f[GameOfLife.wrapCoord h y * w +
          GameOfLife.wrapCoord w (x + (w : Int))]? =
        f[GameOfLife.wrapCoord h y * w + GameOfLife.wrapCoord w x]?
      rw [hwx', hwx]
    · show f[GameOfLife.wrapCoord h (y + (h : Int)) * w +
          GameOfLife.wrapCoord w x]? =
        f[GameOfLife.wrapCoord h y * w + GameOfLife.wrapCoord w x]?
      rw [hwy', hwy]

theorem wrap_resolution_amended_witness :
    (∃ c, gridCorner.get (-4) 0 = some c) ∧
    gridCorner.get ((-1) + 3) (-1) = gridCorner.get (-1) (-1) :=
  ⟨((wrap_resolution_amended gridCorner rfl (by decide) (by decide)
      (by decide)).1 (-4) 0).2.2,
    ((wrap_resolution_amended gridCorner rfl (by decide) (by decide)
      (by decide)).2 (-1) (-1) (by decide) (by decide) (by decide)
      (by decide)).2.1⟩

/-! Section C9: zero-dimension construction -/

/-- C9 counterexample: `new` performs no validation at all — constructing
with width 0 silently returns an ordinary degenerate grid (empty cell
vector), it does not report an invalid-configuration condition.  (`new` is
total; its Rust signature `fn new(..) -> Self` has no error channel.) -/
theorem new_zero_rejection_cex :
    (GameOfLife.new 0 5 WrapMode.Wrap (fun _ => true)).width = 0 ∧
    (GameOfLife.new 0 5 WrapMode.Wrap (fun _ => true)).height = 5 ∧
    (GameOfLife.new 0 5 WrapMode.Wrap (fun _ => true)).field = [] :=
  ⟨rfl, rfl, rfl⟩

/-- C9 amended: `new` does not reject zero dimensions; it always constructs
a grid with exactly `width*height` cells, which for `width = 0` or
`height = 0` is the degenerate grid with an empty cell vector. -/
theorem new_no_rejection (w h : Nat) (wrap : WrapMode) (rng : Nat → Bool) :
    (GameOfLife.new w h wrap rng).field.length = w * h ∧
    (w = 0 ∨ h = 0 → (GameOfLife.new w h wrap rng).field = []) := by
  constructor
  · simp [GameOfLife.new, GameOfLife.generate_field]
  · intro h0
    have hz : w * h = 0 := by rcases h0 with h0 | h0 <;> simp [h0]
    show GameOfLife.generate_field rng (w * h) = []
    rw [hz]
    rfl

theorem new_no_rejection_witness :
    (GameOfLife.new 0 5 WrapMode.NoWrap (fun _ => false)).field = [] :=
  (new_no_rejection 0 5 WrapMode.NoWrap (fun _ => false)).2 (Or.inl rfl)

/-! Section C10: a lone live cell dies -/

/-- Evaluating `is_alive` on a `Wrap`-mode grid, written as the row-major
lookup it performs. -/
lemma is_alive_wrap (w h : Nat) (f : List Cell) (x y : Int) :
    (GameOfLife.mk w h f WrapMode.Wrap).is_alive x y =
      (f[GameOfLife.wrapCoord h y * w + GameOfLife.wrapCoord w x]?.map
        Cell.is_alive).getD false := rfl

/-- If all cells other than `j0` are dead, any live lookup resolves to `j0`. -/
lemma alive_lookup_eq_unique (w h : Nat) (f : List Cell) (j0 : Nat)
    (hdead : ∀ k, k < f.length → k ≠ j0 →
      f[k]?.map Cell.is_alive = some false)
    (x y : Int)
    (hal : (GameOfLife.mk w h f WrapMode.Wrap).is_alive x y = true) :
    GameOfLife.wrapCoord h y * w + GameOfLife.wrapCoord w x = j0 := by
  rw [is_alive_wrap] at hal
  set k := GameOfLife.wrapCoord h y * w + GameOfLife.wrapCoord w x with hk
  match hopt : f[k]? with
  | none =>
    rw [hopt] at hal
    simp at hal
  | some c =>
    rw [hopt] at hal
    have hc : c.is_alive = true := hal
    have hlt : k < f.length := by
      by_contra hge
      rw [List.getElem?_eq_none (by omega)] at hopt
      simp at hopt
    by_contra hne
    have hd := hdead k hlt hne
    rw [hopt] at hd
    have hd' : some c.is_alive = some false := hd
    injection hd' with hd''
    rw [hc] at hd''
    exact Bool.noConfusion hd''

/-- On a `Wrap` grid of dimensions at least 3×3 with at most one live cell,
every neighbour count is at most 1: the eight offsets resolve to pairwise
distinct cells, and at most one of those is the live one. -/
lemma count_neighbors_le_one_of_unique (w h : Nat) (f : List Cell)
    (hw : 3 ≤ w) (hh : 3 ≤ h) (hwb : w < 2 ^ 63) (hhb : h < 2 ^ 63)
    (hlen : f.length = w * h) (j0 : Nat)
    (hdead : ∀ k, k < f.length → k ≠ j0 →
      f[k]?.map Cell.is_alive = some false)
    (i : Nat) (hi : i < f.length) :
    (GameOfLife.mk w h f WrapMode.Wrap).count_neighbors i ≤ 1 := by
  have hw0 : 0 < w := by omega
  have hxlt : i % w < w := Nat.mod_lt _ hw0
  have hylt : i / w < h := Nat.div_lt_of_lt_mul (by omega)
  show (neighborOffsets.filter (fun p =>
    (GameOfLife.mk w h f WrapMode.Wrap).is_alive
      (((i % w : Nat) : Int) + p.1) (((i / w : Nat) : Int) + p.2))).length ≤ 1
  apply length_filter_le_one
  have hnodup : neighborOffsets.Nodup := by decide
  apply List.Pairwise.imp_of_mem ?_ hnodup
  intro a b ha hb hab hcon
  obtain ⟨hpa, hpb⟩ := hcon
  have hbounds : ∀ p ∈ neighborOffsets,
      (-1 : Int) ≤ p.1 ∧ p.1 ≤ 1 ∧ (-1 : Int) ≤ p.2 ∧ p.2 ≤ 1 := by decide
  obtain ⟨ha1, ha2, ha3, ha4⟩ := hbounds a ha
  obtain ⟨hb1, hb2, hb3, hb4⟩ := hbounds b hb
  have hja := alive_lookup_eq_unique w h f j0 hdead _ _ hpa
  have hjb := alive_lookup_eq_unique w h f j0 hdead _ _ hpb
  have heq : GameOfLife.wrapCoord h (((i / w : Nat) : Int) + a.2) * w +
      GameOfLife.wrapCoord w (((i % w : Nat) : Int) + a.1) =
      GameOfLife.wrapCoord h (((i / w : Nat) : Int) + b.2) * w +
      GameOfLife.wrapCoord w (((i % w : Nat) : Int) + b.1) := by
    rw [hja, hjb]
  obtain ⟨hxeq, hyeq⟩ := rowmajor_inj w _ _ _ _
    (wrapCoord_lt w hw0 _) (wrapCoord_lt w hw0 _) heq
  have h1 : a.1 = b.1 :=
    wrapCoord_add_inj w hw hwb (i % w) hxlt a.1 b.1 ha1 ha2 hb1 hb2 hxeq
  have h2 : a.2 = b.2 :=
    wrapCoord_add_inj h hh hhb (i / w) hylt a.2 b.2 ha3 ha4 hb3 hb4 hyeq
  exact hab (Prod.ext h1 h2)

/-- C10: on any `Wrap` grid with both dimensions at least 3 (and within the
64-bit machine range) holding exactly one live cell, one `update` produces
the fully dead grid. -/
theorem single_live_cell_dies (g : GameOfLife)
    (hwrap : g.wrap = WrapMode.Wrap) (hw : 3 ≤ g.width) (hh : 3 ≤ g.height)
    (hwb : g.width < 2 ^ 63) (hhb : g.height < 2 ^ 63)
    (hlen : g.field.length = g.width * g.height) (j0 : Nat)
    (halive : g.field[j0]?.map Cell.is_alive = some true)
    (hdead : ∀ k, k < g.field.length → k ≠ j0 →
      g.field[k]?.map Cell.is_alive = some false) :
    ∀ i, i < g.update.field.length →
      g.update.field[i]?.map Cell.is_alive = some false := by
  rcases g with ⟨w, h, f, wr⟩
  have hwrap' : wr = WrapMode.Wrap := hwrap
  subst hwrap'
  dsimp only at hw hh hlen hwb hhb halive hdead ⊢
  intro i hi
  rw [GameOfLife.update_field_length] at hi
  dsimp only at hi
  have hcount := count_neighbors_le_one_of_unique w h f hw hh hwb hhb hlen j0
    hdead i hi
  rw [GameOfLife.update_field_getElem, List.getElem?_eq_getElem hi]
  show some (Cell.is_alive (branchNext
    ((GameOfLife.mk w h f WrapMode.Wrap).count_neighbors i) f[i])) = some false
  rw [branchNext_eq_dead _ _ (by omega) (by omega)]
  rfl

theorem single_live_cell_dies_witness :
    (GameOfLife.mk 3 3 [Cell.dead, Cell.dead, Cell.dead, Cell.dead,
        Cell.alive, Cell.dead, Cell.dead, Cell.dead, Cell.dead]
      WrapMode.Wrap).update.field[4]?.map Cell.is_alive = some false :=
  single_live_cell_dies (GameOfLife.mk 3 3 [Cell.dead, Cell.dead, Cell.dead,
      Cell.dead, Cell.alive, Cell.dead, Cell.dead, Cell.dead, Cell.dead]
    WrapMode.Wrap) rfl (by decide) (by decide) (by decide) (by decide)
    (by decide) 4 (by decide) (by decide) 4 (by decide)
